import Mathlib

/-!
Verification development for the agent runtime and orchestration engine
(agent registry, memory read path, prompt composer, tool executor,
execution loop, router).  The definitions below are a shallow embedding of
the TypeScript source: database tables become lists of rows, supabase
queries become pure functions over those lists with explicit error
oracles, the model backend becomes a round-indexed oracle, and the
execution loop becomes a fuel-indexed recursion with fuel equal to the
round cap.
-/

set_option maxRecDepth 4000

namespace PCW

/-! ## Data model: stored rows -/

/-- A row of the `agents` table (`platform-schema-v2.sql`), after the
`loadAgent` post-processing that parses `tools` into a list.  `temperature`
is optional in the schema (`float default 0.7`). -/
structure AgentRow where
  id : String
  name : String
  display_name : String
  role : String
  system_prompt : String
  tools : List String
  model : String
  temperature : Option ℚ
  is_active : Bool
  deriving DecidableEq, Repr

/-- A row of the `agent_memory` table.  `created_at` is modelled as a
natural-number timestamp; `expires_at` is the optional TTL. -/
structure MemoryRow where
  agent_id : String
  company_id : String
  memory_type : String
  content : String
  confidence : ℚ
  source : String
  created_at : ℕ
  expires_at : Option ℕ
  deriving DecidableEq, Repr

/-- A row of the `companies` table, restricted to the columns the runtime
selects (`name, type`). -/
structure CompanyRow where
  name : String
  type : String
  deriving DecidableEq, Repr

/-! ## Agent Registry (`loadAgent`, `listAgents`) -/

/-- The default sampling temperature `0.7` applied by `loadAgent`
(`temperature ?? 0.7`), given in reduced constructor form so that
comparisons evaluate. -/
def defaultTemperature : ℚ := ⟨7, 10, by norm_num, by norm_num⟩

/-- Semantics of supabase `.single()`: exactly one matching row, else an
error (which `loadAgent` turns into `null`). -/
def singleRow {α : Type} : List α → Option α
  | [a] => some a
  | _ => none

/-- `loadAgent` (agent-runner.ts 22-40): select from `agents` where
`name = agentName` and `is_active = true`, `.single()`; on error or no
data return `null`; otherwise normalise `temperature` with `?? 0.7`.
`storeError = true` models a failed store round trip, which the source
also collapses to `null`. -/
def loadAgent (table : List AgentRow) (storeError : Bool) (agentName : String) :
    Option AgentRow :=
  if storeError then none
  else
    match singleRow (table.filter (fun r => r.name == agentName && r.is_active)) with
    | none => none
    | some a => some { a with temperature := some (a.temperature.getD defaultTemperature) }

/-- Insert into a list sorted ascending by `name` (models `order('name')`). -/
def insertByName (r : AgentRow) : List AgentRow → List AgentRow
  | [] => [r]
  | x :: xs => if r.name ≤ x.name then r :: x :: xs else x :: insertByName r xs

/-- Sort rows ascending by `name`. -/
def sortByName : List AgentRow → List AgentRow
  | [] => []
  | x :: xs => insertByName x (sortByName xs)

/-- `listAgents` (agent-runner.ts 321-337): select from `agents` where
`is_active = true`, ordered by name; store errors yield `[]`. -/
def listAgents (table : List AgentRow) (storeError : Bool) : List AgentRow :=
  if storeError then []
  else sortByName (table.filter (fun r => r.is_active))

/-! ## Memory Store read path (`loadMemories`) -/

/-- Insert into a list sorted descending by `created_at`
(models `order('created_at', ascending: false)`). -/
def insertByCreatedDesc (r : MemoryRow) : List MemoryRow → List MemoryRow
  | [] => [r]
  | x :: xs =>
      if r.created_at > x.created_at then r :: x :: xs
      else x :: insertByCreatedDesc r xs

/-- Sort rows descending by `created_at`. -/
def sortByCreatedDesc : List MemoryRow → List MemoryRow
  | [] => []
  | x :: xs => insertByCreatedDesc x (sortByCreatedDesc xs)

/-- Does a memory row pass the client-side expiry filter at time `now`?
(agent-runner.ts 64-67: rows with no `expires_at` always pass.) -/
def notExpired (now : ℕ) (m : MemoryRow) : Bool :=
  match m.expires_at with
  | none => true
  | some t => t > now

/-- The fixed confidence floor `0.3` of the memory read path
(`gte('confidence', 0.3)`), given in reduced constructor form so that
comparisons evaluate. -/
def confidenceFloor : ℚ := ⟨3, 10, by norm_num, by norm_num⟩

/-- `loadMemories` (agent-runner.ts 44-68).  The supabase query applies,
in order: the `(agent_id, company_id)` match, the confidence floor
(`gte('confidence', 0.3)`), newest-first ordering, and the 50-row limit.
A store error yields `[]`.  The expiry filter is applied client side,
after the query — i.e. after the 50-row cap. -/
def loadMemories (table : List MemoryRow) (storeError : Bool)
    (agentId companyId : String) (now : ℕ) : List MemoryRow :=
  if storeError then []
  else
    let queried :=
      (sortByCreatedDesc
        (table.filter (fun m =>
          m.agent_id == agentId && m.company_id == companyId &&
            decide (confidenceFloor ≤ m.confidence)))).take 50
    queried.filter (notExpired now)

/-! ## JSON values (model of JavaScript `JSON.parse` / `JSON.stringify`) -/

/-- A JSON value.  Numbers are idealised as rationals.  Objects keep their
fields in source order, with duplicate keys retained by the parser and
resolved (last occurrence wins) at field access, matching JavaScript. -/
inductive Json where
  | null : Json
  | bool (b : Bool) : Json
  | num (q : ℚ) : Json
  | str (s : String) : Json
  | arr (elems : List Json) : Json
  | obj (fields : List (String × Json)) : Json

/-- The characters `JSON.parse` treats as insignificant whitespace. -/
def isJsonWs (c : Char) : Bool :=
  c == ' ' || c == '\t' || c == '\n' || c == '\r'

/-- Literal `{`. -/
def lbrace : Char := Char.ofNat 123

/-- Literal `}`. -/
def rbrace : Char := Char.ofNat 125

/-- Literal backtick. -/
def btick : Char := Char.ofNat 96

/-- Escape one character for a JSON string literal. -/
def jsonEscapeChar (c : Char) : String :=
  if c == '"' then "\\\""
  else if c == '\\' then "\\\\"
  else if c == '\n' then "\\n"
  else if c == '\t' then "\\t"
  else if c == '\r' then "\\r"
  else String.singleton c

mutual

/-- Model of `JSON.stringify` (used by tool handlers to build result
strings). -/
def jsonStringify : Json → String
  | .null => "null"
  | .bool true => "true"
  | .bool false => "false"
  | .num q => if q.den == 1 then toString q.num else toString q
  | .str s => "\"" ++ String.join (s.data.map jsonEscapeChar) ++ "\""
  | .arr xs => "[" ++ jsonStringifyList xs ++ "]"
  | .obj fs =>
      String.singleton lbrace ++ jsonStringifyFields fs ++ String.singleton rbrace

/-- Comma-separated serialisation of array elements. -/
def jsonStringifyList : List Json → String
  | [] => ""
  | [x] => jsonStringify x
  | x :: y :: xs => jsonStringify x ++ "," ++ jsonStringifyList (y :: xs)

/-- Comma-separated serialisation of object fields. -/
def jsonStringifyFields : List (String × Json) → String
  | [] => ""
  | [(k, v)] =>
      "\"" ++ String.join (k.data.map jsonEscapeChar) ++ "\":" ++ jsonStringify v
  | (k, v) :: kv :: fs =>
      "\"" ++ String.join (k.data.map jsonEscapeChar) ++ "\":" ++ jsonStringify v ++
        "," ++ jsonStringifyFields (kv :: fs)

end

/-- JavaScript property access on a parsed JSON value: `undefined`
(`none`) unless the value is an object carrying the key; the last
occurrence of a duplicate key wins, as in `JSON.parse`. -/
def Json.getField : Json → String → Option Json
  | .obj fields, k => (fields.reverse.find? (fun kv => kv.1 == k)).map (·.2)
  | _, _ => none

/-- Is the character a hexadecimal digit? -/
def isHexDigitChar (c : Char) : Bool :=
  c.isDigit || ('a' ≤ c && c ≤ 'f') || ('A' ≤ c && c ≤ 'F')

/-- Parse the body of a JSON string literal (opening quote already
consumed), returning the string and the remaining input.  Handles the
JSON escape set; rejects raw control characters. -/
def parseJsonString (acc : List Char) : List Char → Option (String × List Char)
  | [] => none
  | '"' :: rest => some (String.mk acc.reverse, rest)
  | '\\' :: 'u' :: h1 :: h2 :: h3 :: h4 :: rest =>
      if isHexDigitChar h1 && isHexDigitChar h2 && isHexDigitChar h3 && isHexDigitChar h4 then
        let n := [h1, h2, h3, h4].foldl (fun n c =>
          16 * n + (if c.isDigit then c.toNat - 48
                    else if c.val ≤ 70 then c.toNat - 55 else c.toNat - 87)) 0
        parseJsonString (Char.ofNat n :: acc) rest
      else none
  | '\\' :: e :: rest =>
      if e == '"' then parseJsonString ('"' :: acc) rest
      else if e == '\\' then parseJsonString ('\\' :: acc) rest
      else if e == '/' then parseJsonString ('/' :: acc) rest
      else if e == 'b' then parseJsonString (Char.ofNat 8 :: acc) rest
      else if e == 'f' then parseJsonString (Char.ofNat 12 :: acc) rest
      else if e == 'n' then parseJsonString ('\n' :: acc) rest
      else if e == 'r' then parseJsonString ('\r' :: acc) rest
      else if e == 't' then parseJsonString ('\t' :: acc) rest
      else none
  | c :: rest =>
      if c.toNat < 32 then none else parseJsonString (c :: acc) rest

/-- Digits of a decimal prefix, with the remaining input. -/
def takeDigits (cs : List Char) : List Char × List Char :=
  (cs.takeWhile Char.isDigit, cs.dropWhile Char.isDigit)

/-- Value of a digit list read in base 10. -/
def digitsToNat (ds : List Char) : ℕ :=
  ds.foldl (fun n c => 10 * n + (c.toNat - 48)) 0

/-- Parse a JSON number prefix (grammar `-? int frac? exp?`, leading
zeros rejected as in `JSON.parse`), as a rational. -/
def parseJsonNumber (cs : List Char) : Option (ℚ × List Char) :=
  let (neg, cs₁) := match cs with
    | '-' :: rest => (true, rest)
    | _ => (false, cs)
  match takeDigits cs₁ with
  | ([], _) => none
  | (intDs, cs₂) =>
    if intDs.length > 1 && intDs.headI == '0' then none
    else
      let (fracDs, cs₃) := match cs₂ with
        | '.' :: rest =>
            match takeDigits rest with
            | ([], _) => ([], none)
            | (ds, r) => (ds, some r)
        | _ => ([], some cs₂)
      match cs₃ with
      | none => none
      | some cs₃ =>
        let expPart : Option (ℤ × List Char) := match cs₃ with
          | 'e' :: rest | 'E' :: rest =>
              let (esign, rest₁) := match rest with
                | '+' :: r => ((1 : ℤ), r)
                | '-' :: r => ((-1 : ℤ), r)
                | _ => ((1 : ℤ), rest)
              match takeDigits rest₁ with
              | ([], _) => none
              | (eds, r) => some (esign * digitsToNat eds, r)
          | _ => some (0, cs₃)
        match expPart with
        | none => none
        | some (e, rest) =>
          let mantissa : ℚ :=
            (digitsToNat intDs : ℚ) +
              (digitsToNat fracDs : ℚ) / ((10 : ℚ) ^ fracDs.length)
          let scaled : ℚ :=
            if 0 ≤ e then mantissa * (10 : ℚ) ^ e.toNat
            else mantissa / (10 : ℚ) ^ (-e).toNat
          some ((if neg then -scaled else scaled), rest)

/-- Parsing context stack: where a just-completed value should be
delivered. -/
inductive JCtx where
  | root : JCtx
  | inArr (acc : List Json) (parent : JCtx) : JCtx
  | inObj (acc : List (String × Json)) (key : String) (parent : JCtx) : JCtx

/-- Parser state: either expecting a value, or delivering a completed
value into the surrounding context. -/
inductive JState where
  | expectVal (ctx : JCtx) (cs : List Char) : JState
  | deliver (ctx : JCtx) (v : Json) (cs : List Char) : JState

/-- After a `,` inside an object: parse the next `"key" :` and return the
key with the input after the colon. -/
def parseObjKey (cs : List Char) : Option (String × List Char) :=
  match cs.dropWhile isJsonWs with
  | '"' :: rest =>
      match parseJsonString [] rest with
      | some (k, rest₂) =>
          match rest₂.dropWhile isJsonWs with
          | ':' :: rest₃ => some (k, rest₃)
          | _ => none
      | none => none
  | _ => none

/-- One fuel-indexed step machine covering the whole JSON grammar.  Every
recursive call decreases the fuel, so the definition is structural and
evaluates by `rfl`/`decide`. -/
def jsonStep : ℕ → JState → Option Json
  | 0, _ => none
  | f + 1, .expectVal ctx cs =>
      match cs.dropWhile isJsonWs with
      | 'n' :: 'u' :: 'l' :: 'l' :: rest => jsonStep f (.deliver ctx .null rest)
      | 't' :: 'r' :: 'u' :: 'e' :: rest => jsonStep f (.deliver ctx (.bool true) rest)
      | 'f' :: 'a' :: 'l' :: 's' :: 'e' :: rest => jsonStep f (.deliver ctx (.bool false) rest)
      | '"' :: rest =>
          match parseJsonString [] rest with
          | some (s, rest₂) => jsonStep f (.deliver ctx (.str s) rest₂)
          | none => none
      | '[' :: rest =>
          match rest.dropWhile isJsonWs with
          | ']' :: rest₂ => jsonStep f (.deliver ctx (.arr []) rest₂)
          | _ => jsonStep f (.expectVal (.inArr [] ctx) rest)
      | c :: rest =>
          if c == lbrace then
            match rest.dropWhile isJsonWs with
            | c₂ :: rest₂ =>
                if c₂ == rbrace then jsonStep f (.deliver ctx (.obj []) rest₂)
                else
                  match parseObjKey rest with
                  | some (k, rest₃) => jsonStep f (.expectVal (.inObj [] k ctx) rest₃)
                  | none => none
            | [] => none
          else
            match parseJsonNumber (c :: rest) with
            | some (q, rest₂) => jsonStep f (.deliver ctx (.num q) rest₂)
            | none => none
      | [] => none
  | f + 1, .deliver ctx v cs =>
      match ctx with
      | .root => if (cs.dropWhile isJsonWs).isEmpty then some v else none
      | .inArr acc parent =>
          match cs.dropWhile isJsonWs with
          | ',' :: rest => jsonStep f (.expectVal (.inArr (acc ++ [v]) parent) rest)
          | ']' :: rest => jsonStep f (.deliver parent (.arr (acc ++ [v])) rest)
          | _ => none
      | .inObj acc k parent =>
          match cs.dropWhile isJsonWs with
          | ',' :: rest =>
              match parseObjKey rest with
              | some (k₂, rest₂) =>
                  jsonStep f (.expectVal (.inObj (acc ++ [(k, v)]) k₂ parent) rest₂)
              | none => none
          | c :: rest =>
              if c == rbrace then
                jsonStep f (.deliver parent (.obj (acc ++ [(k, v)])) rest)
              else none
          | _ => none

/-- Model of `JSON.parse`: `none` when `JSON.parse` would throw. -/
def Json.parse (s : String) : Option Json :=
  jsonStep (4 * s.length + 16) (.expectVal .root s.data)

/-- The memory read path as §4.2 of the spec words it: confidence floor,
then expiry filter, then newest-first order, then the 50-item cap.
This definition follows the spec's words, for comparison with
`loadMemories` above, which follows the source. -/
def loadMemoriesSpecOrder (table : List MemoryRow)
    (agentId companyId : String) (now : ℕ) : List MemoryRow :=
  (sortByCreatedDesc
    (((table.filter (fun m =>
        m.agent_id == agentId && m.company_id == companyId &&
          decide (confidenceFloor ≤ m.confidence))).filter
      (notExpired now)))).take 50

/-! ## Tool Registry & Executor (`agent-tools.ts`) -/

/-- `ToolContext` (types/agent.ts): the acting agent and tenant for one
invocation. -/
structure ToolContext where
  agentId : String
  agentName : String
  companyId : String
  deriving DecidableEq, Repr

/-- A tool handler: arguments and context in, a result string out, or a
thrown exception (`.error`). -/
def ToolHandler : Type := Json → ToolContext → Except String String

/-- The handler registry: the process-wide `handlers : Map<string,
ToolHandler>` of agent-tools.ts, abstracted as a lookup function. -/
def HandlerMap : Type := String → Option ToolHandler

/-- The structured "tool not found" error string
(`JSON.stringify({ error: `Tool "name" not found` })`). -/
def toolNotFoundMsg (name : String) : String :=
  jsonStringify (.obj [("error", .str ("Tool \"" ++ name ++ "\" not found"))])

/-- The structured error string produced when a handler throws
(`JSON.stringify({ error: `Tool execution failed: msg` })`). -/
def toolFailedMsg (msg : String) : String :=
  jsonStringify (.obj [("error", .str ("Tool execution failed: " ++ msg))])

/-- `executeTool` (agent-tools.ts 2285-2302): look up the handler; absent
handlers yield a structured not-found string; a throwing handler is
caught and converted to a structured error string.  The Lean function is
total, so no exception escapes this boundary. -/
def executeTool (handlers : HandlerMap) (name : String) (input : Json)
    (ctx : ToolContext) : String :=
  match handlers name with
  | none => toolNotFoundMsg name
  | some h =>
      match h input ctx with
      | .ok s => s
      | .error msg => toolFailedMsg msg

/-! ## Memory writes (`save_memory` handler and the `agent_memory`
unique constraint) -/

/-- Does a stored row collide with the `unique(agent_id, company_id,
content)` constraint for the given key? -/
def memKeyMatches (agentId companyId content : String) (r : MemoryRow) : Bool :=
  r.agent_id == agentId && r.company_id == companyId && r.content == content

/-- Semantics of `insert` into `agent_memory` under the schema's
`unique(agent_id, company_id, content)` constraint: a duplicate key is
rejected with Postgres error code `23505`, otherwise the row is appended
with the schema defaults (`confidence` 1.0, no expiry). -/
def insertAgentMemory (table : List MemoryRow) (row : MemoryRow) :
    Except String (List MemoryRow) :=
  if table.any (memKeyMatches row.agent_id row.company_id row.content) then
    .error "23505"
  else .ok (table ++ [row])

/-- The row the `save_memory` handler inserts (agent-tools.ts 146-153):
agent and company from the tool context, `source: 'conversation'`, the
schema defaults for the rest. -/
def saveMemoryRow (ctx : ToolContext) (memoryType content : String)
    (now : ℕ) : MemoryRow :=
  { agent_id := ctx.agentId
    company_id := ctx.companyId
    memory_type := memoryType
    content := content
    confidence := 1
    source := "conversation"
    created_at := now
    expires_at := none }

/-- The `save_memory` tool handler (agent-tools.ts 128-165): insert the
memory row; error code `23505` (duplicate) is reported as the success
status `already_remembered`; any other error becomes a structured error
string.  Returns the result string and the updated table. -/
def save_memory (table : List MemoryRow) (ctx : ToolContext)
    (memoryType content : String) (now : ℕ) : String × List MemoryRow :=
  match insertAgentMemory table (saveMemoryRow ctx memoryType content now) with
  | .error code =>
      if code == "23505" then
        (jsonStringify (.obj [("status", .str "already_remembered")]), table)
      else (jsonStringify (.obj [("error", .str code)]), table)
  | .ok table₂ => (jsonStringify (.obj [("status", .str "memory_saved")]), table₂)

/-! ## Prompt Composer (`formatMemoriesForPrompt`, `buildSystemPrompt`) -/

/-- First-occurrence order of memory types, as JavaScript object key
insertion order produces for the `grouped` record. -/
def memoryTypesInOrder (ms : List MemoryRow) : List String :=
  (ms.map (fun m => m.memory_type)).dedup

/-- `type.charAt(0).toUpperCase() + type.slice(1)`. -/
def capitalizeFirst (s : String) : String :=
  match s.data with
  | [] => ""
  | c :: cs => String.mk (c.toUpper :: cs)

/-- `formatMemoriesForPrompt` (agent-runner.ts 70-88): empty memories
produce the empty string (no section); otherwise a header followed by
one labelled bullet list per memory type, in first-occurrence order. -/
def formatMemoriesForPrompt (memories : List MemoryRow) : String :=
  if memories.isEmpty then ""
  else
    "\n\n## Your Memories About This Client\n" ++
      String.join
        ((memoryTypesInOrder memories).map (fun t =>
          "\n### " ++ capitalizeFirst t ++ "s\n" ++
            String.join
              (((memories.filter (fun m => m.memory_type == t)).map
                (fun m => "- " ++ m.content ++ "\n")))))

/-- The "Current Context" block appended when the company row loads
(agent-runner.ts 107-113). -/
def contextBlock (company : CompanyRow) (companyId today : String) : String :=
  "\n\n## Current Context\n" ++
    "- Company: " ++ company.name ++ "\n" ++
    "- Company Type: " ++ company.type ++ "\n" ++
    "- Company ID: " ++ companyId ++ "\n" ++
    "- Date: " ++ today ++ "\n"

/-- The compliance reminder appended verbatim for `bh_center` tenants
(agent-runner.ts 117-121). -/
def hipaaReminder : String :=
  "\n\n## HIPAA REMINDER\n" ++
    "This is a behavioral health center. NEVER include PHI (Protected Health Information) in any output. " ++
    "Do not confirm or deny patient status. Keep all responses HIPAA-compliant.\n"

/-- `buildSystemPrompt` (agent-runner.ts 92-124), with the company row
and memory list supplied by the callers below: base instructions, then
the context block (when the company row loaded), then the grouped-memory
block, then — only for `bh_center` companies — the compliance reminder. -/
def buildSystemPrompt (agent : AgentRow) (company : Option CompanyRow)
    (companyId today : String) (memories : List MemoryRow) : String :=
  let prompt := agent.system_prompt
  let prompt := match company with
    | some c => prompt ++ contextBlock c companyId today
    | none => prompt
  let prompt := prompt ++ formatMemoriesForPrompt memories
  if (company.map (fun c => c.type)) == some "bh_center" then
    prompt ++ hipaaReminder
  else prompt

/-! ## Router (`routeMessage`, unnamed orchestrator module) -/

/-- A content block of a model response: the tagged union of text blocks
and tool-invocation requests. -/
inductive ContentBlock where
  | text (s : String) : ContentBlock
  | toolUse (id name : String) (input : Json) : ContentBlock

/-- A model response: content blocks plus the stop reason. -/
structure ModelResponse where
  content : List ContentBlock
  stop_reason : String

/-- `RouteResult` as the code produces it: each field is the JavaScript
value read off the parsed JSON (`none` = `undefined`). -/
structure RouteResult where
  targetAgent : Option Json
  reasoning : Option Json
  confidence : Option Json

/-- `response.content.find(b => b.type === 'text')`. -/
def firstTextBlock : List ContentBlock → Option String
  | [] => none
  | .text s :: _ => some s
  | .toolUse _ _ _ :: rest => firstTextBlock rest

/-- JavaScript `\s` whitespace (the common subset). -/
def isJsWs (c : Char) : Bool :=
  c == ' ' || c == '\t' || c == '\n' || c == '\r' ||
    c == Char.ofNat 11 || c == Char.ofNat 12

/-- `replace(/^(backtick fence)(json)?\s*\n?/i, '')`: strip one leading
code fence and the whitespace after it. -/
def stripLeadingFence (s : String) : String :=
  match s.data with
  | c₁ :: c₂ :: c₃ :: rest =>
      if c₁ == btick && c₂ == btick && c₃ == btick then
        let rest₂ := match rest with
          | a :: b :: c :: d :: r =>
              if (String.mk [a, b, c, d]).toLower == "json" then r
              else rest
          | _ => rest
        String.mk (rest₂.dropWhile isJsWs)
      else s
  | _ => s

/-- `replace(/\n?(backtick fence)\s*$/i, '')`: strip one trailing code
fence, the whitespace after it, and an optional newline before it. -/
def stripTrailingFence (s : String) : String :=
  match (s.data.reverse.dropWhile isJsWs) with
  | c₁ :: c₂ :: c₃ :: rest =>
      if c₁ == btick && c₂ == btick && c₃ == btick then
        match rest with
        | '\n' :: rest₂ => String.mk rest₂.reverse
        | _ => String.mk rest.reverse
      else s
  | _ => s

/-- JavaScript `String.prototype.trim`. -/
def jsTrim (s : String) : String :=
  String.mk ((s.data.dropWhile isJsWs).reverse.dropWhile isJsWs).reverse

/-- The routing text cleanup (part_008, 72-75): strip code fences, then
trim. -/
def cleanRoutingText (s : String) : String :=
  jsTrim (stripTrailingFence (stripLeadingFence s))

/-- The fallback `RouteResult` the router returns when the model reply
has no text block. -/
def routingFallbackNoText : RouteResult :=
  { targetAgent := some (.str "atlas")
    reasoning := some (.str "Routing failed, defaulting to Atlas")
    confidence := some (.num (1/2)) }

/-- The fallback `RouteResult` the router returns when reading the reply
throws (unparsable JSON, or field access on JSON `null`). -/
def routingFallbackParse : RouteResult :=
  { targetAgent := some (.str "atlas")
    reasoning := some (.str "Failed to parse routing, defaulting to Atlas")
    confidence := some (.num (1/2)) }

/-- `routeMessage` (part_008, 43-95) as a function of the routing model's
reply: find the first text block; absent text falls back; then clean and
`JSON.parse` the text inside a try/catch — a parse failure falls back, a
parsed `null` falls back (property access on `null` throws inside the
`try`), and any other parsed value has its `target_agent`, `reasoning`
and `confidence` properties passed through as-is. -/
def routeMessage (response : ModelResponse) : RouteResult :=
  match firstTextBlock response.content with
  | none => routingFallbackNoText
  | some t =>
      match Json.parse (cleanRoutingText t) with
      | none => routingFallbackParse
      | some .null => routingFallbackParse
      | some v =>
          { targetAgent := v.getField "target_agent"
            reasoning := v.getField "reasoning"
            confidence := v.getField "confidence" }

/-! ## Execution Loop and `runAgent` (agent-runner.ts 179-309) -/

/-- `MAX_TOOL_ROUNDS` (agent-runner.ts 18). -/
def MAX_TOOL_ROUNDS : ℕ := 10

/-- A `tool_result` content block sent back to the model. -/
structure ToolResultBlock where
  tool_use_id : String
  content : String

/-- The content of one transcript turn: a plain string (user and history
turns), the assistant's content blocks, or a batch of tool results. -/
inductive MsgContent where
  | str (s : String) : MsgContent
  | blocks (bs : List ContentBlock) : MsgContent
  | results (rs : List ToolResultBlock) : MsgContent

/-- One transcript turn (`Anthropic.MessageParam`). -/
structure MessageParam where
  role : String
  content : MsgContent

/-- A history turn as supplied by callers (`AgentMessage`). -/
structure AgentMessage where
  role : String
  content : String

/-- `buildMessages` (agent-runner.ts 128-142): the conversation history
followed by the new user message. -/
def buildMessages (userMessage : String)
    (conversationHistory : List AgentMessage) : List MessageParam :=
  conversationHistory.map (fun m => { role := m.role, content := .str m.content }) ++
    [{ role := "user", content := .str userMessage }]

/-- The text blocks of a response, in order (`content.filter(type === 'text')`). -/
def textBlocksOf (r : ModelResponse) : List String :=
  r.content.filterMap (fun b => match b with
    | .text s => some s
    | .toolUse _ _ _ => none)

/-- The tool-use blocks of a response, in order, as `(id, name, input)`. -/
def toolUseBlocksOf (r : ModelResponse) : List (String × String × Json) :=
  r.content.filterMap (fun b => match b with
    | .text _ => none
    | .toolUse id name input => some (id, name, input))

/-- The mutable state of the multi-turn loop: the transcript, the text
held as the current best-effort answer, the audit list of requested tool
names, and the number of model calls made so far (the loop index). -/
structure LoopState where
  messages : List MessageParam
  finalResponse : String
  toolsUsed : List String
  rounds : ℕ

/-- One round's update of `finalResponse` (agent-runner.ts 244-246):
when the response has text blocks, the held text is replaced by their
newline join; otherwise it is kept. -/
def roundText (r : ModelResponse) (held : String) : String :=
  if (textBlocksOf r).isEmpty then held
  else String.intercalate "\n" (textBlocksOf r)

/-- The multi-turn tool-use loop of `runAgent` (agent-runner.ts 216-283),
as a fuel-indexed recursion with fuel `MAX_TOOL_ROUNDS`.  The model
backend is an oracle indexed by the loop round; a model-call transport
failure propagates as `.error`.  Each round: call the model; replace the
held text if the response has text blocks; stop if there are no tool-use
blocks; otherwise execute every requested tool, extend the transcript
with the assistant turn and the batched tool results, and stop early
when the response signalled `end_turn` with text already held. -/
def runLoop (model : ℕ → Except String ModelResponse) (handlers : HandlerMap)
    (ctx : ToolContext) : ℕ → LoopState → Except String LoopState
  | 0, st => .ok st
  | fuel + 1, st =>
      match model st.rounds with
      | .error e => .error e
      | .ok response =>
          let final := roundText response st.finalResponse
          let st₂ : LoopState :=
            { st with finalResponse := final, rounds := st.rounds + 1 }
          let toolUses := toolUseBlocksOf response
          if toolUses.isEmpty then .ok st₂
          else
            let toolResults : List ToolResultBlock :=
              toolUses.map (fun tu =>
                { tool_use_id := tu.1, content := executeTool handlers tu.2.1 tu.2.2 ctx })
            let st₃ : LoopState :=
              { st₂ with
                toolsUsed := st₂.toolsUsed ++ toolUses.map (fun tu => tu.2.1)
                messages := st₂.messages ++
                  [{ role := "assistant", content := .blocks response.content },
                   { role := "user", content := .results toolResults }] }
            if response.stop_reason == "end_turn" && !(final == "") then .ok st₃
            else runLoop model handlers ctx fuel st₃

/-- `RunAgentParams` (types/agent.ts). -/
structure RunAgentParams where
  agentName : String
  message : String
  companyId : String
  conversationHistory : List AgentMessage
  metadata : List (String × Json)

/-- `RunAgentResult` (types/agent.ts). -/
structure RunAgentResult where
  response : String
  agentName : String
  agentDisplayName : String
  toolsUsed : List String
  activityId : String

/-- A row of the `agent_activity` table as `logActivity` inserts it. -/
structure ActivityRow where
  agent_id : String
  company_id : String
  action_type : String
  description : String
  tools_used : List String
  response_length : ℕ
  extra : List (String × Json)

/-- `logActivity` (agent-runner.ts 146-171): insert the activity row; on
a store error log and return the empty id with nothing written;
otherwise return the new id and the written row. -/
def logActivity (insertResult : Except String String) (row : ActivityRow) :
    String × List ActivityRow :=
  match insertResult with
  | .error _ => ("", [])
  | .ok id => (id, [row])

/-- The description string of the end-of-run activity record
(agent-runner.ts 290). -/
def activityDescription (displayName message : String) : String :=
  displayName ++ " responded to: \"" ++ message.take 100 ++
    (if message.length > 100 then "..." else "") ++ "\""

/-- The external collaborators of one `runAgent` invocation: the store
tables, a per-query store-failure oracle, the company row (a failed
lookup is already collapsed to `none` by the destructuring in the
source), the current date/time, the model oracle, and the tool handler
registry. -/
structure Deps where
  agentsTable : List AgentRow
  agentsStoreError : Bool
  memoryTable : List MemoryRow
  memoriesStoreError : Bool
  company : Option CompanyRow
  today : String
  now : ℕ
  model : ℕ → Except String ModelResponse
  handlers : HandlerMap
  activityInsert : Except String String

/-- `runAgent` (agent-runner.ts 179-309).  Returns the propagated error
or the `RunAgentResult`, paired with the list of activity rows written
(at most the one end-of-run record).  An unknown or inactive agent
throws; a model transport failure propagates and reaches no write; the
system prompt is composed exactly as in the source (observable through
no channel here, but kept for fidelity). -/
def runAgent (deps : Deps) (params : RunAgentParams) :
    Except String RunAgentResult × List ActivityRow :=
  match loadAgent deps.agentsTable deps.agentsStoreError params.agentName with
  | none => (.error ("Agent \"" ++ params.agentName ++ "\" not found or inactive"), [])
  | some agent =>
      let memories :=
        loadMemories deps.memoryTable deps.memoriesStoreError agent.id
          params.companyId deps.now
      let _systemPrompt :=
        buildSystemPrompt agent deps.company params.companyId deps.today memories
      let messages := buildMessages params.message params.conversationHistory
      let ctx : ToolContext :=
        { agentId := agent.id, agentName := agent.name, companyId := params.companyId }
      match runLoop deps.model deps.handlers ctx MAX_TOOL_ROUNDS
          { messages := messages, finalResponse := "", toolsUsed := [], rounds := 0 } with
      | .error e => (.error e, [])
      | .ok st =>
          let row : ActivityRow :=
            { agent_id := agent.id
              company_id := params.companyId
              action_type := "chat_response"
              description := activityDescription agent.display_name params.message
              tools_used := st.toolsUsed
              response_length := st.finalResponse.length
              extra := params.metadata }
          let logged := logActivity deps.activityInsert row
          (.ok { response := st.finalResponse
                 agentName := agent.name
                 agentDisplayName := agent.display_name
                 toolsUsed := st.toolsUsed
                 activityId := logged.1 }, logged.2)

/-- The loop state `runAgent` reaches for the given collaborators: the
same computation as `runAgent`, exposed so that round counts can be
stated. -/
def runAgentLoopOutcome (deps : Deps) (params : RunAgentParams) :
    Option (Except String LoopState) :=
  match loadAgent deps.agentsTable deps.agentsStoreError params.agentName with
  | none => none
  | some agent =>
      let ctx : ToolContext :=
        { agentId := agent.id, agentName := agent.name, companyId := params.companyId }
      some (runLoop deps.model deps.handlers ctx MAX_TOOL_ROUNDS
        { messages := buildMessages params.message params.conversationHistory
          finalResponse := "", toolsUsed := [], rounds := 0 })

/-- The text the loop holds after consuming rounds
`start, …, start + n - 1` of the response stream `resp`, starting from
held text `base`: each text-bearing round replaces the held text. -/
def accumFromR (resp : ℕ → ModelResponse) : String → ℕ → ℕ → String
  | base, _, 0 => base
  | base, start, n + 1 =>
      accumFromR resp (roundText (resp start) base) (start + 1) n

/-- The text held after `n` rounds of a fresh loop. -/
def accumUpTo (resp : ℕ → ModelResponse) (n : ℕ) : String :=
  accumFromR resp "" 0 n

/-! ## Concrete collaborators used by witnesses and counterexamples -/

/-- A registry with no tools, for the tool-not-found witness. -/
def w5Handlers : HandlerMap := fun name =>
  if name == "boom" then some (fun _ _ => .error "kaboom")
  else if name == "echo" then some (fun _ _ => .ok "pong")
  else none

/-- A concrete tool context. -/
def w5Ctx : ToolContext :=
  { agentId := "ag-1", agentName := "marcus", companyId := "co-1" }

/-- A concrete tool context for the memory-write witness. -/
def w7Ctx : ToolContext :=
  { agentId := "ag-1", agentName := "sarah", companyId := "co-9" }

/-- A 51-row memory table in which the newest row is expired: 51 rows
pass the confidence floor, 50 pass both filters, but the newest 50 —
the query result under the cap — contain the expired row. -/
def c4Table : List MemoryRow :=
  (List.range 51).map (fun i =>
    { agent_id := "a", company_id := "c", memory_type := "fact",
      content := "m", confidence := 1, source := "s",
      created_at := i, expires_at := if i == 50 then some 5 else none })

/-- A one-row memory table for the amended-claim witness. -/
def w4Table : List MemoryRow :=
  [{ agent_id := "a", company_id := "c", memory_type := "preference",
     content := "short replies", confidence := 1, source := "s",
     created_at := 4, expires_at := none }]

/-- A routing reply whose text is the empty JSON object: valid JSON, but
carrying none of the `target_agent`, `reasoning`, `confidence` fields. -/
def c2Resp : ModelResponse :=
  { content := [.text "\x7b\x7d"], stop_reason := "end_turn" }

/-- Text held across one tool round, replaced by the next text-bearing
round: round 0 carries narrative text and a tool request, round 1 only
the final text. -/
def w10Resp : ℕ → ModelResponse
  | 0 => { content := [.text "draft", .toolUse "i" "t" .null], stop_reason := "tool_use" }
  | _ => { content := [.text "final answer"], stop_reason := "end_turn" }

/-- The model oracle of the two-round text-replacement run. -/
def w10Model : ℕ → Except String ModelResponse := fun i => .ok (w10Resp i)

/-- A registry whose single tool returns `"pong"`. -/
def w10Handlers : HandlerMap := fun _ => some (fun _ _ => .ok "pong")

/-- The tool context of the two-round run. -/
def w10Ctx : ToolContext :=
  { agentId := "ag-1", agentName := "atlas", companyId := "co-1" }

/-- The fresh loop state of the two-round run. -/
def w10Init : LoopState :=
  { messages := [], finalResponse := "", toolsUsed := [], rounds := 0 }

/-- The loop state the two-round run ends in. -/
def w10Final : LoopState :=
  { messages :=
      [{ role := "assistant",
         content := .blocks [.text "draft", .toolUse "i" "t" .null] },
       { role := "user", content := .results [{ tool_use_id := "i", content := "pong" }] }]
    finalResponse := "final answer"
    toolsUsed := ["t"]
    rounds := 2 }

/-- Collaborators for the activity-insert-failure witness: one text-only
model round, a failing activity insert. -/
def w9Deps : Deps :=
  { agentsTable :=
      [{ id := "ag-1", name := "atlas", display_name := "Atlas", role := "pm",
         system_prompt := "p", tools := [], model := "m", temperature := some 1,
         is_active := true }]
    agentsStoreError := false
    memoryTable := []
    memoriesStoreError := false
    company := none
    today := "2026-10-11"
    now := 0
    model := fun _ => .ok { content := [.text "hello"], stop_reason := "end_turn" }
    handlers := fun _ => none
    activityInsert := .error "store down" }

/-- Parameters for the activity-insert-failure witness. -/
def w9Params : RunAgentParams :=
  { agentName := "atlas", message := "hi", companyId := "co-1",
    conversationHistory := [], metadata := [] }

/-- A response with both narrative text and a tool request that also
signals `end_turn`: it satisfies "every model response contains a
tool-invocation request", yet ends the loop in one round. -/
def c1Resp : ModelResponse :=
  { content := [.text "hi", .toolUse "i" "ping" .null], stop_reason := "end_turn" }

/-- Collaborators in which every model round answers `c1Resp`. -/
def c1Deps : Deps :=
  { agentsTable :=
      [{ id := "ag-1", name := "atlas", display_name := "Atlas", role := "pm",
         system_prompt := "p", tools := [], model := "m", temperature := some 1,
         is_active := true }]
    agentsStoreError := false
    memoryTable := []
    memoriesStoreError := false
    company := none
    today := "2026-10-11"
    now := 0
    model := fun _ => .ok c1Resp
    handlers := fun _ => none
    activityInsert := .ok "a1" }

/-- Parameters for the round-cap counterexample run. -/
def c1Params : RunAgentParams :=
  { agentName := "atlas", message := "go", companyId := "co-1",
    conversationHistory := [], metadata := [] }

/-- A textless tool-only response that never signals `end_turn`. -/
def w1ToolResp : ModelResponse :=
  { content := [.toolUse "i" "t" .null], stop_reason := "tool_use" }

/-- The constant response stream of the full-ten-rounds witness run. -/
def w1RespF : ℕ → ModelResponse := fun _ => w1ToolResp

/-- Collaborators for the full-ten-rounds witness run. -/
def w1Deps : Deps :=
  { agentsTable :=
      [{ id := "ag-1", name := "atlas", display_name := "Atlas", role := "pm",
         system_prompt := "p", tools := [], model := "m", temperature := some 1,
         is_active := true }]
    agentsStoreError := false
    memoryTable := []
    memoriesStoreError := false
    company := none
    today := "2026-10-11"
    now := 0
    model := fun i => .ok (w1RespF i)
    handlers := fun _ => none
    activityInsert := .ok "a1" }

/-- Parameters for the full-ten-rounds witness run. -/
def w1Params : RunAgentParams :=
  { agentName := "atlas", message := "go", companyId := "co-1",
    conversationHistory := [], metadata := [] }

/-- Collaborators in which the memory-store read fails but the model
answers normally. -/
def c6Deps : Deps :=
  { agentsTable :=
      [{ id := "ag-1", name := "atlas", display_name := "Atlas", role := "pm",
         system_prompt := "p", tools := [], model := "m", temperature := some 1,
         is_active := true }]
    agentsStoreError := false
    memoryTable :=
      [{ agent_id := "ag-1", company_id := "co-1", memory_type := "fact",
         content := "unreachable", confidence := 1, source := "s",
         created_at := 1, expires_at := none }]
    memoriesStoreError := true
    company := none
    today := "2026-10-11"
    now := 0
    model := fun _ => .ok { content := [.text "answer"], stop_reason := "end_turn" }
    handlers := fun _ => none
    activityInsert := .ok "act-1" }

/-- Parameters for the store-failure counterexample run. -/
def c6Params : RunAgentParams :=
  { agentName := "atlas", message := "hi", companyId := "co-1",
    conversationHistory := [], metadata := [] }

/-- Collaborators whose model call fails with a transport error. -/
def w6Deps : Deps :=
  { agentsTable :=
      [{ id := "ag-1", name := "atlas", display_name := "Atlas", role := "pm",
         system_prompt := "p", tools := [], model := "m", temperature := some 1,
         is_active := true }]
    agentsStoreError := false
    memoryTable := []
    memoriesStoreError := false
    company := none
    today := "2026-10-11"
    now := 0
    model := fun _ => .error "ECONNREFUSED"
    handlers := fun _ => none
    activityInsert := .ok "a1" }

/-- Parameters for the model-transport-failure witness run. -/
def w6Params : RunAgentParams :=
  { agentName := "atlas", message := "hi", companyId := "co-1",
    conversationHistory := [], metadata := [] }

/-- The agent record `loadAgent` produces in the runs above. -/
def wAgentLoaded : AgentRow :=
  { id := "ag-1", name := "atlas", display_name := "Atlas", role := "pm",
    system_prompt := "p", tools := [], model := "m", temperature := some 1,
    is_active := true }

end PCW

namespace PCW

/-! ## Theorems -/

/-- `confidenceFloor` is the literal `0.3` of the source. -/
theorem confidenceFloor_is_p3 : confidenceFloor = 3/10 := by
  unfold confidenceFloor
  rw [Rat.mk'_eq_divInt]
  norm_num [Rat.divInt_eq_div]

/-- `defaultTemperature` is the literal `0.7` of the source. -/
theorem defaultTemperature_is_p7 : defaultTemperature = 7/10 := by
  unfold defaultTemperature
  rw [Rat.mk'_eq_divInt]
  norm_num [Rat.divInt_eq_div]

/-- C3: for every regulated tenant (company type `bh_center`), the
composed instruction block is exactly the base instructions, the context
block and the memory block, with the compliance reminder appended
verbatim as the last section — for every memory set, the empty one
included. -/
theorem buildSystemPrompt_bh_center_hipaa_last
    (agent : AgentRow) (c : CompanyRow) (companyId today : String)
    (memories : List MemoryRow) (hreg : c.type = "bh_center") :
    buildSystemPrompt agent (some c) companyId today memories =
      (agent.system_prompt ++ contextBlock c companyId today ++
        formatMemoriesForPrompt memories) ++ hipaaReminder := by
  simp [buildSystemPrompt, hreg]

/-- C3 witness: a concrete regulated-tenant invocation with empty
memories carries the reminder as final section. -/
theorem buildSystemPrompt_bh_center_hipaa_last_witness :
    buildSystemPrompt
        { id := "ag-1", name := "atlas", display_name := "Atlas",
          role := "project_manager", system_prompt := "You are Atlas.",
          tools := [], model := "m", temperature := some 1, is_active := true }
        (some { name := "Acme BH", type := "bh_center" }) "co-1" "2026-10-11" [] =
      ("You are Atlas." ++
        contextBlock { name := "Acme BH", type := "bh_center" } "co-1" "2026-10-11" ++
        formatMemoriesForPrompt []) ++ hipaaReminder :=
  buildSystemPrompt_bh_center_hipaa_last
    { id := "ag-1", name := "atlas", display_name := "Atlas",
      role := "project_manager", system_prompt := "You are Atlas.",
      tools := [], model := "m", temperature := some 1, is_active := true }
    { name := "Acme BH", type := "bh_center" } "co-1" "2026-10-11" [] rfl

/-- C5: `executeTool` is a total function into result strings (no
exception escapes its boundary); an unregistered name yields the
structured "tool not found" string, a throwing handler is converted to
the structured execution-failure string, and a returning handler's
string passes through. -/
theorem executeTool_total_and_structured (handlers : HandlerMap)
    (name : String) (input : Json) (ctx : ToolContext) :
    (handlers name = none →
      executeTool handlers name input ctx = toolNotFoundMsg name) ∧
    (∀ h msg, handlers name = some h → h input ctx = .error msg →
      executeTool handlers name input ctx = toolFailedMsg msg) ∧
    (∀ h s, handlers name = some h → h input ctx = .ok s →
      executeTool handlers name input ctx = s) := by
  refine ⟨fun hn => ?_, fun h msg hh he => ?_, fun h s hh he => ?_⟩
  · simp [executeTool, hn]
  · simp [executeTool, hh, he]
  · simp [executeTool, hh, he]

/-- C5 witness: with a concrete registry, an unknown tool and a throwing
tool both come back as structured error strings, and a returning tool's
string passes through. -/
theorem executeTool_total_and_structured_witness :
    executeTool w5Handlers "send_email" .null w5Ctx = toolNotFoundMsg "send_email" ∧
    executeTool w5Handlers "boom" .null w5Ctx = toolFailedMsg "kaboom" ∧
    executeTool w5Handlers "echo" .null w5Ctx = "pong" :=
  ⟨(executeTool_total_and_structured w5Handlers "send_email" .null w5Ctx).1 rfl,
   (executeTool_total_and_structured w5Handlers "boom" .null w5Ctx).2.1
      (fun _ _ => .error "kaboom") "kaboom" rfl rfl,
   (executeTool_total_and_structured w5Handlers "echo" .null w5Ctx).2.2
      (fun _ _ => .ok "pong") "pong" rfl rfl⟩

/-- C7: writing a memory twice with identical (agent, tenant, content)
stores exactly one item: the first write succeeds, the second hits the
unique constraint, is reported as the success status
`already_remembered`, and leaves the table unchanged. -/
theorem save_memory_idempotent (table : List MemoryRow) (ctx : ToolContext)
    (mt₁ mt₂ content : String) (now₁ now₂ : ℕ)
    (hfresh : table.countP (memKeyMatches ctx.agentId ctx.companyId content) = 0) :
    (save_memory table ctx mt₁ content now₁).1 =
      jsonStringify (.obj [("status", .str "memory_saved")]) ∧
    (save_memory (save_memory table ctx mt₁ content now₁).2 ctx mt₂ content now₂).1 =
      jsonStringify (.obj [("status", .str "already_remembered")]) ∧
    (save_memory (save_memory table ctx mt₁ content now₁).2 ctx mt₂ content now₂).2.countP
        (memKeyMatches ctx.agentId ctx.companyId content) = 1 ∧
    (save_memory (save_memory table ctx mt₁ content now₁).2 ctx mt₂ content now₂).2 =
      (save_memory table ctx mt₁ content now₁).2 := by
  have hany : table.any (memKeyMatches ctx.agentId ctx.companyId content) = false := by
    rw [List.any_eq_false]
    intro x hx
    have := List.countP_eq_zero.mp hfresh x hx
    simpa using this
  have hrowkey :
      memKeyMatches ctx.agentId ctx.companyId content
        (saveMemoryRow ctx mt₂ content now₂) = true := by
    simp [memKeyMatches, saveMemoryRow]
  have h1 : save_memory table ctx mt₁ content now₁ =
      (jsonStringify (.obj [("status", .str "memory_saved")]),
        table ++ [saveMemoryRow ctx mt₁ content now₁]) := by
    simp only [save_memory, insertAgentMemory]
    rw [show table.any
          (memKeyMatches (saveMemoryRow ctx mt₁ content now₁).agent_id
            (saveMemoryRow ctx mt₁ content now₁).company_id
            (saveMemoryRow ctx mt₁ content now₁).content) = false by
      simpa [saveMemoryRow] using hany]
    simp
  have hany₂ : (table ++ [saveMemoryRow ctx mt₁ content now₁]).any
      (memKeyMatches ctx.agentId ctx.companyId content) = true := by
    simp [List.any_append, memKeyMatches, saveMemoryRow]
  have h2 : save_memory (table ++ [saveMemoryRow ctx mt₁ content now₁]) ctx
      mt₂ content now₂ =
      (jsonStringify (.obj [("status", .str "already_remembered")]),
        table ++ [saveMemoryRow ctx mt₁ content now₁]) := by
    simp only [save_memory, insertAgentMemory]
    rw [show (table ++ [saveMemoryRow ctx mt₁ content now₁]).any
          (memKeyMatches (saveMemoryRow ctx mt₂ content now₂).agent_id
            (saveMemoryRow ctx mt₂ content now₂).company_id
            (saveMemoryRow ctx mt₂ content now₂).content) = true by
      simpa [saveMemoryRow] using hany₂]
    simp
  refine ⟨by rw [h1], by rw [h1, h2], ?_, by rw [h1, h2]⟩
  rw [h1, h2]
  simp [List.countP_append, hfresh, List.countP_cons,
    memKeyMatches, saveMemoryRow]

/-- A `singleRow` result is one of the rows. -/
theorem singleRow_mem {α : Type} {l : List α} {a : α}
    (h : singleRow l = some a) : a ∈ l := by
  match l, h with
  | [x], h => simp [singleRow] at h; simp [h]

/-- Membership is preserved through `insertByName`. -/
theorem mem_insertByName {a r : AgentRow} {l : List AgentRow} :
    a ∈ insertByName r l ↔ a = r ∨ a ∈ l := by
  induction l with
  | nil => simp [insertByName]
  | cons x xs ih =>
      by_cases h : r.name ≤ x.name
      · simp [insertByName, h, ih]
      · simp [insertByName, h, ih]
        tauto

/-- `sortByName` is membership-preserving. -/
theorem mem_sortByName {a : AgentRow} {l : List AgentRow} :
    a ∈ sortByName l ↔ a ∈ l := by
  induction l with
  | nil => simp [sortByName]
  | cons x xs ih => simp [sortByName, mem_insertByName, ih]

/-- C8: an agent name that is absent, or all of whose rows are inactive,
loads as `NotFound` (`null`); any successfully loaded configuration is
active; and `listAgents` only ever returns active configurations. -/
theorem registry_never_returns_inactive (table : List AgentRow)
    (storeError : Bool) (agentName : String) :
    ((∀ r ∈ table, r.name = agentName → r.is_active = false) →
      loadAgent table storeError agentName = none) ∧
    (∀ a, loadAgent table storeError agentName = some a → a.is_active = true) ∧
    (∀ a ∈ listAgents table storeError, a.is_active = true) := by
  refine ⟨fun habs => ?_, fun a ha => ?_, fun a ha => ?_⟩
  · cases storeError with
    | true => simp [loadAgent]
    | false =>
        have hfil : table.filter (fun r => r.name == agentName && r.is_active) = [] := by
          rw [List.filter_eq_nil_iff]
          intro r hr
          by_cases hn : r.name = agentName
          · simp [hn, habs r hr hn]
          · simp [hn]
        simp [loadAgent, hfil, singleRow]
  · cases storeError with
    | true => simp [loadAgent] at ha
    | false =>
        simp only [loadAgent, if_neg Bool.false_ne_true] at ha
        cases hs : singleRow (table.filter (fun r => r.name == agentName && r.is_active)) with
        | none => rw [hs] at ha; exact absurd ha (by simp)
        | some b =>
            rw [hs] at ha
            have hmem := singleRow_mem hs
            have hb : (b.name == agentName && b.is_active) = true :=
              (List.mem_filter.mp hmem).2
            have hact : b.is_active = true := by
              simpa using (Bool.and_eq_true_iff.mp hb).2
            simp only [Option.some.injEq] at ha
            rw [← ha]
            exact hact
  · cases storeError with
    | true => simp [listAgents] at ha
    | false =>
        simp only [listAgents, if_neg Bool.false_ne_true] at ha
        have := mem_sortByName.mp ha
        have hb : (a.is_active : Bool) = true := by
          have := (List.mem_filter.mp this).2
          simpa using this
        exact hb

/-- C8 witness: with a two-row registry (an inactive `marcus`, an active
`atlas`), `marcus` and an absent name load as `null`, a successful load
is active, and `listAgents` returns only the active row. -/
theorem registry_never_returns_inactive_witness :
    (loadAgent
        [{ id := "1", name := "marcus", display_name := "Marcus", role := "sales",
           system_prompt := "p", tools := [], model := "m", temperature := none,
           is_active := false },
         { id := "2", name := "atlas", display_name := "Atlas", role := "pm",
           system_prompt := "p", tools := [], model := "m", temperature := none,
           is_active := true }] false "marcus" = none) ∧
    (∀ a, loadAgent
        [{ id := "1", name := "marcus", display_name := "Marcus", role := "sales",
           system_prompt := "p", tools := [], model := "m", temperature := none,
           is_active := false },
         { id := "2", name := "atlas", display_name := "Atlas", role := "pm",
           system_prompt := "p", tools := [], model := "m", temperature := none,
           is_active := true }] false "atlas" = some a → a.is_active = true) ∧
    (∀ a ∈ listAgents
        [{ id := "1", name := "marcus", display_name := "Marcus", role := "sales",
           system_prompt := "p", tools := [], model := "m", temperature := none,
           is_active := false },
         { id := "2", name := "atlas", display_name := "Atlas", role := "pm",
           system_prompt := "p", tools := [], model := "m", temperature := none,
           is_active := true }] false, a.is_active = true) :=
  ⟨(registry_never_returns_inactive _ false "marcus").1 (by decide),
   (registry_never_returns_inactive _ false "atlas").2.1,
   (registry_never_returns_inactive _ false "atlas").2.2⟩

/-- C2 counterexample: the reply text `"{}"` does not parse as a JSON
object carrying the `target_agent`, `reasoning` and `confidence` fields
(it is the empty object), yet `routeMessage` does not return the atlas
fallback: `JSON.parse` succeeds, so the code passes the missing fields
through as `undefined` instead of falling back to `atlas` with
confidence 0.5. -/
theorem routeMessage_missing_fields_cex :
    Json.parse (cleanRoutingText "\x7b\x7d") = some (.obj []) ∧
    (Json.obj []).getField "target_agent" = none ∧
    routeMessage c2Resp =
      { targetAgent := none, reasoning := none, confidence := none } ∧
    routingFallbackParse.targetAgent = some (.str "atlas") ∧
    routingFallbackNoText.targetAgent = some (.str "atlas") :=
  ⟨rfl, rfl, rfl, rfl, rfl⟩

/-- C2 as amended: the router falls back to atlas with confidence 0.5
and a fixed reasoning string exactly when the reply lacks a text block,
when the cleaned text is not valid JSON, or when it parses to JSON
`null` (whose field access throws inside the same `try`); when the text
parses to any other JSON value — even one missing the expected fields —
the `target_agent`, `reasoning` and `confidence` properties are passed
through as-is.  Routing failures are still never surfaced as errors. -/
theorem routeMessage_fallback_amended :
    (∀ resp : ModelResponse, firstTextBlock resp.content = none →
      routeMessage resp = routingFallbackNoText) ∧
    (∀ (resp : ModelResponse) (t : String),
      firstTextBlock resp.content = some t →
      Json.parse (cleanRoutingText t) = none →
      routeMessage resp = routingFallbackParse) ∧
    (∀ (resp : ModelResponse) (t : String),
      firstTextBlock resp.content = some t →
      Json.parse (cleanRoutingText t) = some .null →
      routeMessage resp = routingFallbackParse) ∧
    (∀ (resp : ModelResponse) (t : String) (v : Json),
      firstTextBlock resp.content = some t →
      Json.parse (cleanRoutingText t) = some v → v ≠ .null →
      routeMessage resp =
        { targetAgent := v.getField "target_agent"
          reasoning := v.getField "reasoning"
          confidence := v.getField "confidence" }) ∧
    routingFallbackNoText.targetAgent = some (.str "atlas") ∧
    routingFallbackNoText.confidence = some (.num (1/2)) ∧
    routingFallbackParse.targetAgent = some (.str "atlas") ∧
    routingFallbackParse.confidence = some (.num (1/2)) := by
  refine ⟨fun resp h1 => ?_, fun resp t h1 h2 => ?_, fun resp t h1 h2 => ?_,
    fun resp t v h1 h2 hne => ?_, rfl, rfl, rfl, rfl⟩
  · simp [routeMessage, h1]
  · simp [routeMessage, h1, h2]
  · simp [routeMessage, h1, h2]
  · cases v with
    | null => exact absurd rfl hne
    | bool b => simp [routeMessage, h1, h2]
    | num q => simp [routeMessage, h1, h2]
    | str s => simp [routeMessage, h1, h2]
    | arr xs => simp [routeMessage, h1, h2]
    | obj fs => simp [routeMessage, h1, h2]

/-- C2 amended-claim witness: a reply with unparsable text falls back to
the parse fallback, and a reply with no text block falls back to the
no-text fallback. -/
theorem routeMessage_fallback_amended_witness :
    routeMessage { content := [.text "not json"], stop_reason := "end_turn" } =
      routingFallbackParse ∧
    routeMessage { content := [.toolUse "i" "t" .null], stop_reason := "end_turn" } =
      routingFallbackNoText :=
  ⟨routeMessage_fallback_amended.2.1
      { content := [.text "not json"], stop_reason := "end_turn" } "not json" rfl rfl,
   routeMessage_fallback_amended.1
      { content := [.toolUse "i" "t" .null], stop_reason := "end_turn" } rfl⟩

/-- C9: when the end-of-loop activity insert fails, `runAgent` does not
propagate the failure: nothing is written, any successful result carries
the empty `activityId`, and a run whose loop completes still returns a
normal `RunAgentResult`. -/
theorem runAgent_absorbs_activity_insert_failure (deps : Deps)
    (params : RunAgentParams) (e : String)
    (He : deps.activityInsert = .error e) :
    (∀ r, (runAgent deps params).1 = .ok r → r.activityId = "") ∧
    (runAgent deps params).2 = [] ∧
    (∀ st, runAgentLoopOutcome deps params = some (.ok st) →
      ∃ r, (runAgent deps params).1 = .ok r ∧ r.response = st.finalResponse ∧
        r.toolsUsed = st.toolsUsed ∧ r.activityId = "") := by
  cases hld : loadAgent deps.agentsTable deps.agentsStoreError params.agentName with
  | none =>
      refine ⟨fun r hr => ?_, ?_, fun st hst => ?_⟩
      · simp [runAgent, hld] at hr
      · simp [runAgent, hld]
      · simp [runAgentLoopOutcome, hld] at hst
  | some agent =>
      cases hloop : runLoop deps.model deps.handlers
          { agentId := agent.id, agentName := agent.name, companyId := params.companyId }
          MAX_TOOL_ROUNDS
          { messages := buildMessages params.message params.conversationHistory,
            finalResponse := "", toolsUsed := [], rounds := 0 } with
      | error err =>
          refine ⟨fun r hr => ?_, ?_, fun st hst => ?_⟩
          · simp [runAgent, hld, hloop] at hr
          · simp [runAgent, hld, hloop]
          · simp [runAgentLoopOutcome, hld, hloop] at hst
      | ok st₀ =>
          refine ⟨fun r hr => ?_, ?_, fun st hst => ?_⟩
          · simp [runAgent, hld, hloop, logActivity, He] at hr
            rw [← hr]
          · simp [runAgent, hld, hloop, logActivity, He]
          · simp only [runAgentLoopOutcome, hld, hloop, Option.some.injEq,
              Except.ok.injEq] at hst
            subst hst
            exact ⟨{ response := st₀.finalResponse, agentName := agent.name,
                     agentDisplayName := agent.display_name,
                     toolsUsed := st₀.toolsUsed, activityId := "" },
                   by simp [runAgent, hld, hloop, logActivity, He], rfl, rfl, rfl⟩

/-- C9 witness: a concrete run with a failing insert returns a normal
result with response `"hello"` and empty `activityId`, writing nothing. -/
theorem runAgent_absorbs_activity_insert_failure_witness :
    ((runAgent w9Deps w9Params).1 = .ok
      { response := "hello", agentName := "atlas", agentDisplayName := "Atlas",
        toolsUsed := [], activityId := "" }) ∧
    (runAgent w9Deps w9Params).2 = [] ∧
    (∀ r, (runAgent w9Deps w9Params).1 = .ok r → r.activityId = "") :=
  ⟨rfl,
   (runAgent_absorbs_activity_insert_failure w9Deps w9Params "store down" rfl).2.1,
   (runAgent_absorbs_activity_insert_failure w9Deps w9Params "store down" rfl).1⟩

/-- A run all of whose consumed responses are textless leaves the held
text unchanged. -/
theorem runLoop_textless_preserves (model : ℕ → Except String ModelResponse)
    (handlers : HandlerMap) (ctx : ToolContext) (fuel : ℕ) (st st' : LoopState)
    (hrun : runLoop model handlers ctx fuel st = .ok st')
    (htl : ∀ k, st.rounds ≤ k → k < st'.rounds →
      ∀ rk, model k = .ok rk → textBlocksOf rk = []) :
    st'.finalResponse = st.finalResponse ∧ st.rounds ≤ st'.rounds := by
  induction fuel generalizing st with
  | zero =>
      rw [runLoop] at hrun
      cases hrun
      exact ⟨rfl, Nat.le_refl _⟩
  | succ fuel ih =>
      rw [runLoop] at hrun
      cases hm : model st.rounds with
      | error e => rw [hm] at hrun; cases hrun
      | ok r =>
          rw [hm] at hrun
          simp only at hrun
          by_cases hte : (toolUseBlocksOf r).isEmpty
          · rw [if_pos hte] at hrun
            cases hrun
            have hrtext : textBlocksOf r = [] :=
              htl st.rounds (Nat.le_refl _) (Nat.lt_succ_self _) r hm
            exact ⟨by simp [roundText, hrtext], Nat.le_succ _⟩
          · rw [if_neg hte] at hrun
            by_cases hstop :
                (r.stop_reason == "end_turn" &&
                  !(roundText r st.finalResponse == "")) = true
            · rw [if_pos hstop] at hrun
              cases hrun
              have hrtext : textBlocksOf r = [] :=
                htl st.rounds (Nat.le_refl _) (Nat.lt_succ_self _) r hm
              exact ⟨by simp [roundText, hrtext], Nat.le_succ _⟩
            · rw [if_neg hstop] at hrun
              have hrtext : textBlocksOf r = [] := by
                refine htl st.rounds (Nat.le_refl _) ?_ r hm
                have := (ih _ hrun (fun k hk1 hk2 rk hrk =>
                  htl k (Nat.le_trans (Nat.le_succ _) hk1) hk2 rk hrk)).2
                exact Nat.lt_of_lt_of_le (Nat.lt_succ_self _) this
              have hmain := ih _ hrun (fun k hk1 hk2 rk hrk =>
                htl k (Nat.le_trans (Nat.le_succ _) hk1) hk2 rk hrk)
              refine ⟨?_, Nat.le_trans (Nat.le_succ _) hmain.2⟩
              rw [hmain.1]
              simp [roundText, hrtext]

/-- C10: text is replaced, not concatenated: a text-bearing response
overwrites the held text with its own text blocks joined by newlines,
and a completed loop returns exactly the text of the last round that
produced any text — narrative text of earlier rounds is discarded. -/
theorem runLoop_final_is_last_round_text :
    (∀ (r : ModelResponse) (held : String), textBlocksOf r ≠ [] →
      roundText r held = String.intercalate "\n" (textBlocksOf r)) ∧
    (∀ (model : ℕ → Except String ModelResponse) (handlers : HandlerMap)
      (ctx : ToolContext) (fuel : ℕ) (st st' : LoopState) (j : ℕ)
      (rj : ModelResponse),
      runLoop model handlers ctx fuel st = .ok st' →
      model j = .ok rj → st.rounds ≤ j → j < st'.rounds →
      textBlocksOf rj ≠ [] →
      (∀ k, j < k → k < st'.rounds → ∀ rk, model k = .ok rk →
        textBlocksOf rk = []) →
      st'.finalResponse = String.intercalate "\n" (textBlocksOf rj)) := by
  constructor
  · intro r held hr
    simp [roundText, hr]
  · intro model handlers ctx fuel
    induction fuel with
    | zero =>
        intro st st' j rj hrun hj hj1 hj2 hjt htl
        rw [runLoop] at hrun
        cases hrun
        exact absurd hj2 (Nat.not_lt_of_le hj1)
    | succ fuel ih =>
        intro st st' j rj hrun hj hj1 hj2 hjt htl
        rw [runLoop] at hrun
        cases hm : model st.rounds with
        | error e => rw [hm] at hrun; cases hrun
        | ok r =>
            rw [hm] at hrun
            simp only at hrun
            by_cases hte : (toolUseBlocksOf r).isEmpty
            · rw [if_pos hte] at hrun
              cases hrun
              have : j = st.rounds := by
                simp only at hj2
                omega
              subst this
              have : r = rj := Except.ok.inj (hm.symm.trans hj)
              subst this
              simp [roundText, hjt]
            · rw [if_neg hte] at hrun
              by_cases hstop :
                  (r.stop_reason == "end_turn" &&
                    !(roundText r st.finalResponse == "")) = true
              · rw [if_pos hstop] at hrun
                cases hrun
                have : j = st.rounds := by
                  simp only at hj2
                  omega
                subst this
                have : r = rj := Except.ok.inj (hm.symm.trans hj)
                subst this
                simp [roundText, hjt]
              · rw [if_neg hstop] at hrun
                rcases Nat.lt_or_ge j (st.rounds + 1) with hjlt | hjge
                · have hje : j = st.rounds := by omega
                  subst hje
                  have : r = rj := Except.ok.inj (hm.symm.trans hj)
                  subst this
                  have hpres := runLoop_textless_preserves model handlers ctx fuel
                    _ st' hrun (fun k hk1 hk2 rk hrk =>
                      htl k (by simpa using hk1) hk2 rk hrk)
                  rw [hpres.1]
                  simp [roundText, hjt]
                · exact ih _ st' j rj hrun hj (by simpa using hjge) hj2 hjt htl

/-- C10 witness: in the two-round run, round 0's narrative `"draft"` is
discarded and the final response equals round 1's text. -/
theorem runLoop_final_is_last_round_text_witness :
    runLoop w10Model w10Handlers w10Ctx 10 w10Init = .ok w10Final ∧
    w10Final.finalResponse = String.intercalate "\n" (textBlocksOf (w10Resp 1)) ∧
    roundText (w10Resp 0) "" = "draft" :=
  ⟨rfl,
   runLoop_final_is_last_round_text.2 w10Model w10Handlers w10Ctx 10
     w10Init w10Final 1 (w10Resp 1) rfl rfl (by decide) (by decide)
     (by decide)
     (fun k hk1 hk2 rk hrk => absurd hk2 (show ¬k < 2 by omega)),
   runLoop_final_is_last_round_text.1 (w10Resp 0) "" (by decide)⟩

/-- A run in which every round up to the fuel bound requests at least
one tool, the model always returns, and no round both signals `end_turn`
and leaves text held, consumes all its fuel and holds the accumulated
text. -/
theorem runLoop_all_tool_rounds (model : ℕ → Except String ModelResponse)
    (handlers : HandlerMap) (ctx : ToolContext) (resp : ℕ → ModelResponse)
    (hmod : ∀ i, model i = .ok (resp i)) :
    ∀ (fuel : ℕ) (st : LoopState),
      (∀ i, st.rounds ≤ i → i < st.rounds + fuel → toolUseBlocksOf (resp i) ≠ []) →
      (∀ i, st.rounds ≤ i → i < st.rounds + fuel →
        (resp i).stop_reason = "end_turn" →
        accumFromR resp st.finalResponse st.rounds (i + 1 - st.rounds) = "") →
      ∃ st', runLoop model handlers ctx fuel st = .ok st' ∧
        st'.rounds = st.rounds + fuel ∧
        st'.finalResponse = accumFromR resp st.finalResponse st.rounds fuel := by
  intro fuel
  induction fuel with
  | zero =>
      intro st htool hstop
      exact ⟨st, by rw [runLoop], by omega, rfl⟩
  | succ fuel ih =>
      intro st htool hstop
      have hr := hmod st.rounds
      have htool0 : toolUseBlocksOf (resp st.rounds) ≠ [] :=
        htool st.rounds (Nat.le_refl _) (by omega)
      have htoolE : (toolUseBlocksOf (resp st.rounds)).isEmpty = false := by
        rw [Bool.eq_false_iff]
        simpa [List.isEmpty_iff] using htool0
      have hbreak :
          ((resp st.rounds).stop_reason == "end_turn" &&
            !(roundText (resp st.rounds) st.finalResponse == "")) = false := by
        by_cases hstop0 : (resp st.rounds).stop_reason = "end_turn"
        · have hzero := hstop st.rounds (Nat.le_refl _) (by omega) hstop0
          rw [show st.rounds + 1 - st.rounds = 1 by omega] at hzero
          have hz : roundText (resp st.rounds) st.finalResponse = "" := hzero
          simp [hz]
        · simp [hstop0]
      obtain ⟨st', hrun', hro', hfi'⟩ := ih
        { messages := st.messages ++
            [{ role := "assistant", content := .blocks (resp st.rounds).content },
             { role := "user", content := .results
                ((toolUseBlocksOf (resp st.rounds)).map (fun tu =>
                  { tool_use_id := tu.1,
                    content := executeTool handlers tu.2.1 tu.2.2 ctx })) }]
          finalResponse := roundText (resp st.rounds) st.finalResponse
          toolsUsed := st.toolsUsed ++ (toolUseBlocksOf (resp st.rounds)).map
            (fun tu => tu.2.1)
          rounds := st.rounds + 1 }
        (by
          intro i hi1 hi2
          have hi1' : st.rounds + 1 ≤ i := hi1
          have hi2' : i < st.rounds + 1 + fuel := hi2
          exact htool i (by omega) (by omega))
        (by
          intro i hi1 hi2 hs
          have hi1' : st.rounds + 1 ≤ i := hi1
          have hi2' : i < st.rounds + 1 + fuel := hi2
          have h0 := hstop i (by omega) (by omega) hs
          rw [show i + 1 - st.rounds = (i + 1 - (st.rounds + 1)) + 1 by omega] at h0
          exact h0)
      refine ⟨st', ?_, ?_, ?_⟩
      · rw [runLoop, hr]
        simp only [htoolE, hbreak, Bool.false_eq_true, if_false]
        exact hrun'
      · have : st'.rounds = st.rounds + 1 + fuel := hro'
        omega
      · have : st'.finalResponse =
            accumFromR resp (roundText (resp st.rounds) st.finalResponse)
              (st.rounds + 1) fuel := hfi'
        exact this

/-- C1 counterexample: a run in which every model response contains a
tool-invocation request (here every round answers `c1Resp`, which holds
a tool request) and every call and tool execution returns, yet the loop
stops after one round, not ten: `c1Resp` also carries narrative text and
signals `end_turn`, which ends the loop early. -/
theorem runAgent_round_cap_cex :
    c1Deps.model 0 = .ok c1Resp ∧
    toolUseBlocksOf c1Resp = [("i", "ping", Json.null)] ∧
    (runAgentLoopOutcome c1Deps c1Params).map (Except.map LoopState.rounds) =
      some (.ok 1) ∧
    (1 : ℕ) ≠ MAX_TOOL_ROUNDS ∧
    (runAgent c1Deps c1Params).1 =
      .ok { response := "hi", agentName := "atlas", agentDisplayName := "Atlas",
            toolsUsed := ["ping"], activityId := "a1" } :=
  ⟨rfl, rfl, rfl, by decide, rfl⟩

/-- C1 as amended: when every model response up to the cap contains a
tool-invocation request, every model call and tool execution returns,
and no response both signals `end_turn` and leaves accumulated text, the
loop stops after exactly 10 rounds and `runAgent` returns the last
accumulated text without throwing. -/
theorem runAgent_round_cap_amended (deps : Deps) (params : RunAgentParams)
    (agent : AgentRow) (resp : ℕ → ModelResponse)
    (hld : loadAgent deps.agentsTable deps.agentsStoreError params.agentName =
      some agent)
    (hmod : ∀ i, deps.model i = .ok (resp i))
    (htool : ∀ i, i < MAX_TOOL_ROUNDS → toolUseBlocksOf (resp i) ≠ [])
    (hstop : ∀ i, i < MAX_TOOL_ROUNDS → (resp i).stop_reason = "end_turn" →
      accumUpTo resp (i + 1) = "") :
    ∃ st, runAgentLoopOutcome deps params = some (.ok st) ∧
      st.rounds = MAX_TOOL_ROUNDS ∧
      st.finalResponse = accumUpTo resp MAX_TOOL_ROUNDS ∧
      ∃ r, (runAgent deps params).1 = .ok r ∧
        r.response = accumUpTo resp MAX_TOOL_ROUNDS := by
  obtain ⟨st', hrun', hro', hfi'⟩ :=
    runLoop_all_tool_rounds deps.model deps.handlers
      { agentId := agent.id, agentName := agent.name, companyId := params.companyId }
      resp hmod MAX_TOOL_ROUNDS
      { messages := buildMessages params.message params.conversationHistory,
        finalResponse := "", toolsUsed := [], rounds := 0 }
      (by intro i hi1 hi2; exact htool i (by simpa using hi2))
      (by
        intro i hi1 hi2 hs
        have h0 := hstop i (by simpa using hi2) hs
        simpa [accumUpTo] using h0)
  refine ⟨st', ?_, by simpa using hro', by simpa [accumUpTo] using hfi', ?_⟩
  · simp only [runAgentLoopOutcome, hld]
    rw [hrun']
  · refine ⟨{ response := st'.finalResponse, agentName := agent.name,
              agentDisplayName := agent.display_name, toolsUsed := st'.toolsUsed,
              activityId := (logActivity deps.activityInsert
                { agent_id := agent.id
                  company_id := params.companyId
                  action_type := "chat_response"
                  description := activityDescription agent.display_name params.message
                  tools_used := st'.toolsUsed
                  response_length := st'.finalResponse.length
                  extra := params.metadata }).1 }, ?_, ?_⟩
    · simp only [runAgent, hld]
      rw [hrun']
    · simpa [accumUpTo] using hfi'

/-- C1 amended-claim witness: with a constant textless tool-requesting
response the loop runs all ten rounds and `runAgent` returns the (empty)
accumulated text. -/
theorem runAgent_round_cap_amended_witness :
    ∃ st, runAgentLoopOutcome w1Deps w1Params = some (.ok st) ∧
      st.rounds = MAX_TOOL_ROUNDS ∧
      st.finalResponse = accumUpTo w1RespF MAX_TOOL_ROUNDS ∧
      ∃ r, (runAgent w1Deps w1Params).1 = .ok r ∧
        r.response = accumUpTo w1RespF MAX_TOOL_ROUNDS :=
  runAgent_round_cap_amended w1Deps w1Params wAgentLoaded w1RespF rfl
    (fun _ => rfl)
    (fun i _ => by
      intro h
      simp [w1RespF, w1ToolResp, toolUseBlocksOf] at h)
    (fun i _ h => by simp [w1RespF, w1ToolResp] at h)

/-- C6 counterexample: a data-store failure is not fatal — here the
memory-store read fails, yet the invocation completes with a best-effort
answer and an ActivityRecord is written. -/
theorem runAgent_store_failure_not_fatal_cex :
    c6Deps.memoriesStoreError = true ∧
    runAgent c6Deps c6Params =
      (.ok { response := "answer", agentName := "atlas", agentDisplayName := "Atlas",
             toolsUsed := [], activityId := "act-1" },
       [{ agent_id := "ag-1", company_id := "co-1", action_type := "chat_response",
          description := activityDescription "Atlas" "hi",
          tools_used := [], response_length := 6, extra := [] }]) :=
  ⟨rfl, rfl⟩

/-- C6 as amended: a model-backend transport failure is fatal — it
propagates to the caller and no ActivityRecord is written; but a
data-store failure on the memory read is absorbed: the run behaves
exactly as if the agent had no stored memories and completes
best-effort. -/
theorem runAgent_transport_failure_amended :
    (∀ (deps : Deps) (params : RunAgentParams) (agent : AgentRow) (e : String),
      loadAgent deps.agentsTable deps.agentsStoreError params.agentName =
        some agent →
      runAgentLoopOutcome deps params = some (.error e) →
      runAgent deps params = (.error e, [])) ∧
    (∀ (deps : Deps) (params : RunAgentParams),
      runAgent { deps with memoriesStoreError := true } params =
        runAgent { deps with memoriesStoreError := false, memoryTable := [] }
          params) := by
  constructor
  · intro deps params agent e hld hloop
    simp only [runAgentLoopOutcome, hld, Option.some.injEq] at hloop
    simp [runAgent, hld, hloop]
  · intro deps params
    simp [runAgent, loadMemories, sortByCreatedDesc]

/-- C6 amended-claim witness: a concrete model transport failure
propagates out of `runAgent` with nothing written. -/
theorem runAgent_transport_failure_amended_witness :
    runAgent w6Deps w6Params = (.error "ECONNREFUSED", []) :=
  runAgent_transport_failure_amended.1 w6Deps w6Params wAgentLoaded
    "ECONNREFUSED" rfl rfl

/-- Membership is preserved through `insertByCreatedDesc`. -/
theorem mem_insertByCreatedDesc {a r : MemoryRow} {l : List MemoryRow} :
    a ∈ insertByCreatedDesc r l ↔ a = r ∨ a ∈ l := by
  induction l with
  | nil => simp [insertByCreatedDesc]
  | cons x xs ih =>
      by_cases h : r.created_at > x.created_at
      · simp [insertByCreatedDesc, h]
      · simp [insertByCreatedDesc, h, ih]
        tauto

/-- `sortByCreatedDesc` is membership-preserving. -/
theorem mem_sortByCreatedDesc {a : MemoryRow} {l : List MemoryRow} :
    a ∈ sortByCreatedDesc l ↔ a ∈ l := by
  induction l with
  | nil => simp [sortByCreatedDesc]
  | cons x xs ih => simp [sortByCreatedDesc, mem_insertByCreatedDesc, ih]

/-- Inserting keeps a list non-increasing in `created_at`. -/
theorem pairwise_insertByCreatedDesc {r : MemoryRow} {l : List MemoryRow}
    (hl : List.Pairwise (fun x y => y.created_at ≤ x.created_at) l) :
    List.Pairwise (fun x y => y.created_at ≤ x.created_at)
      (insertByCreatedDesc r l) := by
  induction l with
  | nil => simp [insertByCreatedDesc]
  | cons x xs ih =>
      rcases List.pairwise_cons.mp hl with ⟨hx, hxs⟩
      by_cases h : r.created_at > x.created_at
      · rw [insertByCreatedDesc, if_pos h]
        refine List.pairwise_cons.mpr ⟨?_, hl⟩
        intro y hy
        rcases List.mem_cons.mp hy with hy | hy
        · subst hy
          exact Nat.le_of_lt h
        · exact Nat.le_trans (hx y hy) (Nat.le_of_lt h)
      · rw [insertByCreatedDesc, if_neg h]
        refine List.pairwise_cons.mpr ⟨?_, ih hxs⟩
        intro y hy
        rcases mem_insertByCreatedDesc.mp hy with hy | hy
        · subst hy
          exact Nat.le_of_not_lt h
        · exact hx y hy

/-- `sortByCreatedDesc` sorts non-increasing in `created_at`. -/
theorem pairwise_sortByCreatedDesc (l : List MemoryRow) :
    List.Pairwise (fun x y => y.created_at ≤ x.created_at)
      (sortByCreatedDesc l) := by
  induction l with
  | nil => simp [sortByCreatedDesc]
  | cons x xs ih => exact pairwise_insertByCreatedDesc ih

/-- C4 counterexample: on a 51-row store where the newest row is expired
and every row passes the confidence floor, the code returns 49 items
while exactly 50 items pass both the confidence and expiry filters (and
the spec's filter order returns 50) — the 50-item cap is applied before
the expiry filter, not after it. -/
theorem loadMemories_cap_before_expiry_cex :
    (loadMemories c4Table false "a" "c" 10).length = 49 ∧
    (loadMemoriesSpecOrder c4Table "a" "c" 10).length = 50 ∧
    (c4Table.filter (fun m =>
      m.agent_id == "a" && m.company_id == "c" &&
        decide (confidenceFloor ≤ m.confidence) && notExpired 10 m)).length = 50 := by
  decide

/-- C4 as amended: the query applies the confidence floor, newest-first
order and 50-row cap, and the expiry filter runs afterwards client-side;
hence every returned item comes from the store for that (agent, tenant),
passes the confidence floor, is unexpired, the result is ordered
newest-first and holds at most 50 items — but fewer than 50 may be
returned even when more than 50 items pass both filters. -/
theorem loadMemories_amended (table : List MemoryRow) (storeError : Bool)
    (agentId companyId : String) (now : ℕ) :
    (loadMemories table storeError agentId companyId now).length ≤ 50 ∧
    List.Pairwise (fun x y => y.created_at ≤ x.created_at)
      (loadMemories table storeError agentId companyId now) ∧
    (∀ m ∈ loadMemories table storeError agentId companyId now,
      m ∈ table ∧ m.agent_id = agentId ∧ m.company_id = companyId ∧
        confidenceFloor ≤ m.confidence ∧ notExpired now m = true) := by
  cases storeError with
  | true => simp [loadMemories]
  | false =>
      rw [loadMemories, if_neg Bool.false_ne_true]
      set p : MemoryRow → Bool := fun m =>
        m.agent_id == agentId && m.company_id == companyId &&
          decide (confidenceFloor ≤ m.confidence) with hp
      refine ⟨?_, ?_, ?_⟩
      · exact Nat.le_trans
          (List.length_filter_le _ _)
          (by simp [List.length_take_le])
      · exact List.Pairwise.sublist
          (List.Sublist.trans (List.filter_sublist _) (List.take_sublist _ _))
          (pairwise_sortByCreatedDesc (table.filter p))
      · intro m hm
        have hexp : notExpired now m = true := (List.mem_filter.mp hm).2
        have hmem₁ : m ∈ (sortByCreatedDesc (table.filter p)).take 50 :=
          (List.mem_filter.mp hm).1
        have hmem₂ : m ∈ sortByCreatedDesc (table.filter p) :=
          (List.take_sublist _ _).mem hmem₁
        have hmem₃ : m ∈ table.filter p := mem_sortByCreatedDesc.mp hmem₂
        have hpm : p m = true := (List.mem_filter.mp hmem₃).2
        have hparts := Bool.and_eq_true_iff.mp hpm
        have hparts₁ := Bool.and_eq_true_iff.mp hparts.1
        refine ⟨(List.mem_filter.mp hmem₃).1, ?_, ?_, ?_, hexp⟩
        · simpa using hparts₁.1
        · simpa using hparts₁.2
        · simpa using hparts.2

/-- C4 amended-claim witness: on a concrete one-row store the returned
item is in the table, matches the keys, passes the floor and is
unexpired. -/
theorem loadMemories_amended_witness :
    (loadMemories w4Table false "a" "c" 10).length ≤ 50 ∧
    ({ agent_id := "a", company_id := "c", memory_type := "preference",
       content := "short replies", confidence := 1, source := "s",
       created_at := 4, expires_at := none } : MemoryRow) ∈
        loadMemories w4Table false "a" "c" 10 ∧
    (∀ m ∈ loadMemories w4Table false "a" "c" 10,
      m ∈ w4Table ∧ m.agent_id = "a" ∧ m.company_id = "c" ∧
        confidenceFloor ≤ m.confidence ∧ notExpired 10 m = true) :=
  ⟨(loadMemories_amended w4Table false "a" "c" 10).1,
   by decide,
   (loadMemories_amended w4Table false "a" "c" 10).2.2⟩

/-- C7 witness: two identical writes against an initially unrelated
table leave exactly one matching item, the second reporting
`already_remembered`. -/
theorem save_memory_idempotent_witness :
    (save_memory [] w7Ctx "fact" "likes blue" 3).1 =
      jsonStringify (.obj [("status", .str "memory_saved")]) ∧
    (save_memory (save_memory [] w7Ctx "fact" "likes blue" 3).2 w7Ctx
        "fact" "likes blue" 7).1 =
      jsonStringify (.obj [("status", .str "already_remembered")]) ∧
    (save_memory (save_memory [] w7Ctx "fact" "likes blue" 3).2 w7Ctx
        "fact" "likes blue" 7).2.countP
      (memKeyMatches w7Ctx.agentId w7Ctx.companyId "likes blue") = 1 ∧
    (save_memory (save_memory [] w7Ctx "fact" "likes blue" 3).2 w7Ctx
        "fact" "likes blue" 7).2 =
      (save_memory [] w7Ctx "fact" "likes blue" 3).2 :=
  save_memory_idempotent [] w7Ctx "fact" "fact" "likes blue" 3 7 rfl

end PCW
